import Mathlib

/-!
A Lean model of the label-layout core of `src/CSEL.py` (the CSEL label
generator): the Column Resolver `find_column`, the adaptive description
formatter `format_description_v1`, and the element-assembly loop of
`generate_final_labels`, together with theorems checking the behavioural
claims of the specification against this model.

DataFrame rows are modelled as association lists from column labels to
scalar cell values, with Python's `str()` rendering made explicit; the
ReportLab `Paragraph`/`Table`/`PageBreak` objects are modelled by the data
they carry (text, style, grid shape).
-/

namespace CSEL

/-- A raw column label of the uploaded DataFrame: either a string name or a
non-string label (modelled opaquely by a numeric tag), since pandas columns
may hold non-string objects. -/
inductive ColName where
  | str (s : String)
  | nonstr (tag : Nat)
deriving DecidableEq

/-- Python's substring test `needle in hay`, on lists of characters. -/
def containsSub (needle : List Char) : List Char → Bool
  | [] => needle.isPrefixOf ([] : List Char)
  | c :: cs => needle.isPrefixOf (c :: cs) || containsSub needle cs

/-- Python's `str.upper()`, as the list of uppercased characters (ASCII-wise
this is exactly what `.upper()` does to the column headers involved). -/
def upperChars (s : String) : List Char := s.data.map Char.toUpper

/-- The loop-body test of `find_column` (src/CSEL.py line 96):
`isinstance(col, str) and keyword.upper() in col.upper()`. -/
def kwMatches (keyword : String) : ColName → Bool
  | ColName.str s => containsSub (upperChars keyword) (upperChars s)
  | ColName.nonstr _ => false

/-- The inner loop of `find_column` (src/CSEL.py lines 94-97): scan the
columns in their original order and return the first string column that
contains the keyword case-insensitively. -/
def find_in_cols (keyword : String) : List ColName → Option String
  | [] => none
  | ColName.str s :: cs =>
      if containsSub (upperChars keyword) (upperChars s) then some s
      else find_in_cols keyword cs
  | ColName.nonstr _ :: cs => find_in_cols keyword cs

/-- `find_column` (src/CSEL.py lines 91-98): outer loop over the keywords in
priority order, inner loop over the columns in original order; `None` when no
column matches any keyword. -/
def find_column (cols : List ColName) : List String → Option String
  | [] => none
  | k :: ks =>
      match find_in_cols k cols with
      | some s => some s
      | none => find_column cols ks

/-- The string text of a column label, when it is a string. -/
def colString : ColName → Option String
  | ColName.str s => some s
  | ColName.nonstr _ => none

/-- Whether a column label is a string. -/
def isStrCol : ColName → Bool
  | ColName.str _ => true
  | ColName.nonstr _ => false

/-- Modelled from the spec: "return the first column name whose text contains
that keyword as a case-insensitive substring, trying keywords in priority
order and columns in their original order; if no column matches any keyword
for that field, the field resolves to unresolved" — expressed with the
library's first-match combinators. -/
def find_column_spec (cols : List ColName) (kws : List String) : Option String :=
  kws.findSome? (fun k => (cols.find? (kwMatches k)).bind colString)

/-- A scalar value held in a DataFrame cell. `pnan` is pandas' missing-value
marker (a float NaN), `pnone` a Python `None` stored in an object column. -/
inductive PyVal where
  | pstr (s : String)
  | pint (n : Int)
  | pnan
  | pnone
deriving DecidableEq

/-- Python's `str()` on a cell value: `str(nan)` is the literal `"nan"` and
`str(None)` the literal `"None"`. -/
def pyStr : PyVal → String
  | PyVal.pstr s => s
  | PyVal.pint n => toString n
  | PyVal.pnan => "nan"
  | PyVal.pnone => "None"

/-- One DataFrame row, as yielded by `df.iterrows()`: an association list from
column label to cell value. -/
abbrev Record := List (ColName × PyVal)

/-- `str(row.get(col, ""))` as used in src/CSEL.py lines 138-144. An
unresolved field (`col = None`) or an absent key falls back to the default
`""` before `str()` is applied; a present key returns the stored value, so a
stored NaN reaches `str()` unchanged. -/
def rowGet (row : Record) (oc : Option String) : String :=
  match oc with
  | none => pyStr (PyVal.pstr "")
  | some c =>
      match List.find? (fun p => p.1 == ColName.str c) row with
      | some p => pyStr p.2
      | none => pyStr (PyVal.pstr "")

/-- Python's slice `s[:n]`: the first `n` characters. -/
def pyTake (s : String) (n : Nat) : String := String.mk (s.data.take n)

/-- `format_description_v1` (src/CSEL.py lines 57-89), restricted to string
input: `generate_final_labels` always passes `str(...)`, and for a string `s`
the guard `if not desc or not isinstance(desc, str): desc = str(desc)` is the
identity. Returns the rendered text together with the chosen font size, the
data carried by the produced `Paragraph`. -/
def format_description_v1 (desc : String) : String × Nat :=
  let descLength := desc.length
  if descLength ≤ 30 then (desc, 9)
  else if descLength ≤ 50 then (desc, 9)
  else if descLength ≤ 70 then (desc, 9)
  else if descLength ≤ 90 then (desc, 9)
  else (if 100 < desc.length then pyTake desc 100 ++ "..." else desc, 8)

/-- The paragraph style attached to a rendered cell (src/CSEL.py lines
24-54 and the per-description style of lines 79-87, identified by its font
size). -/
inductive CellStyle where
  | header
  | value
  | boldValue
  | boldCenteredValue
  | descSized (fontSize : Nat)
deriving DecidableEq

/-- One grid cell of a label: a `Paragraph` with its text and style, or the
structurally empty filler `''` used under the merged description span. -/
inductive Cell where
  | para (text : String) (style : CellStyle)
  | blank
deriving DecidableEq

/-- The resolved column for each semantic field (src/CSEL.py lines 104-110). -/
structure ColumnMap where
  model_col : Option String
  structure_col : Option String
  station_no_col : Option String
  fixture_location_col : Option String
  part_no_col : Option String
  qty_veh_col : Option String
  desc_col : Option String
deriving DecidableEq

/-- The column-identification block of `generate_final_labels`
(src/CSEL.py lines 104-110), with the exact keyword lists of the source. -/
def resolveColumns (cols : List ColName) : ColumnMap :=
  ⟨ find_column cols ["MODEL"],
    find_column cols ["STRUCTURE"],
    find_column cols ["STATION NO", "STATION_NO", "STATION"],
    find_column cols ["FIXTURE LOCATION", "FIXTURE_LOCATION", "LOCATION"],
    find_column cols ["PART NO", "PARTNO", "PART_NO", "PART#"],
    find_column cols ["QTY/VEH", "QTY_VEH", "QTY/BIN", "QTY"],
    find_column cols ["PART DESC", "PART_DESCRIPTION", "DESC", "DESCRIPTION", "PART NAME"] ⟩

/-- The 3x4 cell grid `data` of one label (src/CSEL.py lines 137-156): a
top row of four bold centered values, a header/value row for PART NO and
QTY/VEH, and the PART NAME row whose value cell is the dynamically formatted
description (the two trailing `''` cells sit under the SPAN merge). -/
def labelGrid (cmap : ColumnMap) (row : Record) : List (List Cell) :=
  [ [Cell.para (rowGet row cmap.model_col) CellStyle.boldCenteredValue,
     Cell.para (rowGet row cmap.structure_col) CellStyle.boldCenteredValue,
     Cell.para (rowGet row cmap.station_no_col) CellStyle.boldCenteredValue,
     Cell.para (rowGet row cmap.fixture_location_col) CellStyle.boldCenteredValue],
    [Cell.para "<b>PART NO</b>" CellStyle.header,
     Cell.para (rowGet row cmap.part_no_col) CellStyle.boldValue,
     Cell.para "<b>QTY/VEH</b>" CellStyle.header,
     Cell.para (rowGet row cmap.qty_veh_col) CellStyle.value],
    [Cell.para "<b>PART NAME</b>" CellStyle.header,
     Cell.para (format_description_v1 (rowGet row cmap.desc_col)).1
       (CellStyle.descSized (format_description_v1 (rowGet row cmap.desc_col)).2),
     Cell.blank, Cell.blank] ]

/-- A flowable appended to `all_elements`: one label's `Table`, or a
`PageBreak`. -/
inductive Element where
  | table (grid : List (List Cell))
  | pageBreak
deriving DecidableEq

/-- Whether an element is a label table. -/
def isTable : Element → Bool
  | Element.table _ => true
  | Element.pageBreak => false

/-- Whether an element is a page break. -/
def isPageBreak : Element → Bool
  | Element.table _ => false
  | Element.pageBreak => true

/-- The row loop of `generate_final_labels` (src/CSEL.py lines 133-178)
applied to the (index label, row) pairs yielded by `df.iterrows()`,
accumulating `all_elements`: one table per row, followed by a `PageBreak`
exactly when `index < total_rows - 1`. -/
def generate_elements_from (cmap : ColumnMap) (total_rows : Nat) :
    List (Nat × Record) → List Element
  | [] => []
  | (index, row) :: rest =>
      Element.table (labelGrid cmap row) ::
        (if index < total_rows - 1
         then Element.pageBreak :: generate_elements_from cmap total_rows rest
         else generate_elements_from cmap total_rows rest)

/-- The element assembly of `generate_final_labels` on a dataset as uploaded
through `main()`: `pd.read_csv` / `pd.read_excel` produce the default
RangeIndex `0..n-1`, so `df.iterrows()` yields the records enumerated by
position and `total_rows = len(df)` is the record count. -/
def generate_final_labels_elements (cols : List ColName) (records : List Record) :
    List Element :=
  generate_elements_from (resolveColumns cols) records.length records.enum

/-- The pagination guarantee: the element list is exactly its label tables
interspersed with single page breaks — one break between each pair of
consecutive tables and none before the first or after the last. -/
def wellPaginated (elems : List Element) : Bool :=
  decide (elems = List.intersperse Element.pageBreak (elems.filter isTable))

/-- Outcome of the final `doc.build(all_elements)` call: success, or the
exception message it raised. -/
inductive BuildOutcome where
  | ok
  | error (msg : String)
deriving DecidableEq

/-- What `generate_final_labels` hands back from its final block: the returned
value and the file-level error reports issued via `status_container.error`. -/
structure BuildReturn where
  result : Option String
  file_errors : List String
deriving DecidableEq

/-- The try/except around `doc.build` (src/CSEL.py lines 180-187): on success
the temp path is returned (and a success status written); on any exception a
single error is reported and `None` is returned. -/
def finish_build (outcome : BuildOutcome) (temp_path : String) : BuildReturn :=
  match outcome with
  | BuildOutcome.ok => ⟨some temp_path, []⟩
  | BuildOutcome.error e => ⟨none, ["Error building PDF: " ++ e]⟩

/-- A 150-character description, exercising the truncation branch. -/
def exDesc150 : String := String.mk (List.replicate 150 'A')

/-- A 101-character description: one character over the hard truncation
limit. -/
def exDesc101 : String := String.mk (List.replicate 101 'B')

/-- Columns of a concrete dataset whose part-number column exists. -/
def exCols4 : List ColName := [ColName.str "PART NO"]

/-- A concrete record whose part-number value is the pandas missing marker. -/
def exRow4 : Record := [(ColName.str "PART NO", PyVal.pnan)]

/-- Columns of a concrete dataset with no part-number-like column. -/
def exCols7 : List ColName := [ColName.str "MODEL", ColName.str "QTY/VEH"]

/-- A concrete record for the dataset without a part-number column. -/
def exRow7 : Record :=
  [(ColName.str "MODEL", PyVal.pstr "3WC"), (ColName.str "QTY/VEH", PyVal.pint 2)]

lemma find_in_cols_eq_find? (k : String) (cols : List ColName) :
    find_in_cols k cols = (cols.find? (kwMatches k)).bind colString := by
  induction cols with
  | nil => rfl
  | cons c cs ih =>
    cases c with
    | str s =>
        by_cases h : containsSub (upperChars k) (upperChars s)
        · simp [find_in_cols, List.find?_cons, kwMatches, h, colString]
        · simp [find_in_cols, List.find?_cons, kwMatches, h, ih]
    | nonstr t => simp [find_in_cols, List.find?_cons, kwMatches, ih]

lemma find_in_cols_eq_none (k : String) (cols : List ColName) :
    find_in_cols k cols = none ↔ ∀ c ∈ cols, kwMatches k c = false := by
  induction cols with
  | nil => simp [find_in_cols]
  | cons c cs ih =>
    cases c with
    | str s =>
        by_cases h : containsSub (upperChars k) (upperChars s)
        · simp [find_in_cols, h, kwMatches]
        · simp [find_in_cols, h, kwMatches, ih]
    | nonstr t => simp [find_in_cols, kwMatches, ih]

lemma find_in_cols_eq_some (k : String) (cols : List ColName) (s : String)
    (h : find_in_cols k cols = some s) :
    ColName.str s ∈ cols ∧ kwMatches k (ColName.str s) = true := by
  induction cols with
  | nil => simp [find_in_cols] at h
  | cons c cs ih =>
    cases c with
    | str t =>
        by_cases hc : containsSub (upperChars k) (upperChars t)
        · rw [find_in_cols, if_pos hc] at h
          obtain rfl : t = s := by simpa using h
          exact ⟨List.mem_cons_self _ _, by simpa [kwMatches] using hc⟩
        · rw [find_in_cols, if_neg hc] at h
          exact ⟨List.mem_cons_of_mem _ (ih h).1, (ih h).2⟩
    | nonstr t =>
        rw [find_in_cols] at h
        exact ⟨List.mem_cons_of_mem _ (ih h).1, (ih h).2⟩

lemma find_column_eq_none (cols : List ColName) (kws : List String) :
    find_column cols kws = none ↔ ∀ k ∈ kws, ∀ c ∈ cols, kwMatches k c = false := by
  induction kws with
  | nil => simp [find_column]
  | cons k ks ih =>
    cases h : find_in_cols k cols with
    | some s =>
        simp only [find_column, h]
        constructor
        · intro hc; exact absurd hc (by simp)
        · intro hall
          have hm := (find_in_cols_eq_some k cols s h).2
          have := hall k (List.mem_cons_self _ _) _ (find_in_cols_eq_some k cols s h).1
          rw [hm] at this
          exact absurd this (by simp)
    | none =>
        simp only [find_column, h, ih, List.forall_mem_cons]
        have := (find_in_cols_eq_none k cols).mp h
        tauto

lemma find_column_eq_some (cols : List ColName) (kws : List String) (s : String)
    (h : find_column cols kws = some s) :
    ∃ k ∈ kws, ColName.str s ∈ cols ∧ kwMatches k (ColName.str s) = true := by
  induction kws with
  | nil => simp [find_column] at h
  | cons k ks ih =>
    cases hf : find_in_cols k cols with
    | some t =>
        rw [find_column, hf] at h
        obtain rfl : t = s := by simpa using h
        exact ⟨k, List.mem_cons_self _ _, find_in_cols_eq_some k cols _ hf⟩
    | none =>
        rw [find_column, hf] at h
        obtain ⟨k', hk', hrest⟩ := ih h
        exact ⟨k', List.mem_cons_of_mem _ hk', hrest⟩

/-- C1: the Column Resolver `find_column` returns the first column name that
contains a keyword as a case-insensitive substring, iterating keywords in
priority order (outer) and columns in their original order (inner) — i.e. it
coincides with the contract function written from the spec's words — and it
returns the unresolved marker `none` exactly when no column matches any
keyword. -/
theorem C1_find_column_first_match (cols : List ColName) (kws : List String) :
    find_column cols kws = find_column_spec cols kws ∧
    (find_column cols kws = none ↔ ∀ k ∈ kws, ∀ c ∈ cols, kwMatches k c = false) := by
  refine ⟨?_, find_column_eq_none cols kws⟩
  induction kws with
  | nil => rfl
  | cons k ks ih =>
    cases h : find_in_cols k cols with
    | some s =>
        rw [find_column, h, find_column_spec, List.findSome?_cons,
          ← find_in_cols_eq_find?, h]
    | none =>
        rw [find_column, h, find_column_spec, List.findSome?_cons,
          ← find_in_cols_eq_find?, h, ih]
        rfl

lemma string_length_append (a b : String) : (a ++ b).length = a.length + b.length := by
  cases a with
  | mk da =>
    cases b with
    | mk db =>
      show (da ++ db).length = da.length + db.length
      exact List.length_append da db

lemma pyTake_length (s : String) (n : Nat) : (pyTake s n).length = min n s.length := by
  cases s with
  | mk data => simp [pyTake, String.length]

lemma fd_eq_of_le (desc : String) (h : desc.length ≤ 90) :
    format_description_v1 desc = (desc, 9) := by
  simp only [format_description_v1]
  split_ifs <;> first | rfl | exact absurd h (by omega)

lemma fd_eq_of_mid (desc : String) (h1 : 90 < desc.length) (h2 : desc.length ≤ 100) :
    format_description_v1 desc = (desc, 8) := by
  simp only [format_description_v1]
  split_ifs <;> first | rfl | exact absurd h1 (by omega) | exact absurd h2 (by omega)

lemma fd_eq_of_gt (desc : String) (h : 100 < desc.length) :
    format_description_v1 desc = (pyTake desc 100 ++ "...", 8) := by
  simp only [format_description_v1]
  split_ifs <;> first | rfl | exact absurd h (by omega)

/-- C2: a description at or below 90 characters renders at the baseline font
size 9 with the full text preserved; above 90 characters it renders at the
reduced size 8; above 100 characters its text is the first 100 characters
with the ellipsis marker "..." appended. -/
theorem C2_format_description_adaptive (desc : String) :
    (desc.length ≤ 90 → format_description_v1 desc = (desc, 9)) ∧
    (90 < desc.length → (format_description_v1 desc).2 = 8) ∧
    (100 < desc.length → (format_description_v1 desc).1 = pyTake desc 100 ++ "...") := by
  refine ⟨fun h => fd_eq_of_le desc h, fun h => ?_, fun h => ?_⟩
  · rcases Nat.lt_or_ge 100 desc.length with h2 | h2
    · rw [fd_eq_of_gt desc h2]
    · rw [fd_eq_of_mid desc h (by omega)]
  · rw [fd_eq_of_gt desc h]

set_option maxRecDepth 8192 in
/-- Witness for C2 at concrete inputs: the 32-character sample description
keeps its text at size 9, and a 150-character description is rendered at size
8 as its first 100 characters followed by "...". -/
theorem C2_format_description_witness :
    format_description_v1 "BELLOW ASSY. WITH RETAINING CLIP"
      = ("BELLOW ASSY. WITH RETAINING CLIP", 9) ∧
    (format_description_v1 exDesc150).2 = 8 ∧
    (format_description_v1 exDesc150).1 = pyTake exDesc150 100 ++ "..." :=
  ⟨(C2_format_description_adaptive _).1 (by decide),
   (C2_format_description_adaptive _).2.1 (by decide),
   (C2_format_description_adaptive _).2.2 (by decide)⟩

set_option maxRecDepth 8192 in
/-- C3 fails on the code: for a 101-character description the rendered text
is the first 100 characters plus the 3-character ellipsis, 103 characters in
all, strictly longer than the original. -/
theorem C3_counterexample :
    exDesc101.length < ((format_description_v1 exDesc101).1).length := by decide

/-- C3 (amended): the rendered description text never exceeds the original
length, except for originals of exactly 101 or 102 characters, whose rendered
text is 103 characters long (100 kept characters plus the 3-character
ellipsis marker). -/
theorem C3_rendered_length_bound (desc : String) :
    (format_description_v1 desc).1.length ≤ desc.length ∨
    ((desc.length = 101 ∨ desc.length = 102) ∧
      (format_description_v1 desc).1.length = 103) := by
  rcases Nat.lt_or_ge 100 desc.length with h | h
  · rw [fd_eq_of_gt desc h]
    have hlen : (pyTake desc 100 ++ "...").length = 103 := by
      rw [string_length_append, pyTake_length]
      have hd : "...".length = 3 := by decide
      rw [hd]
      omega
    rcases Nat.lt_or_ge desc.length 103 with hlt | hge
    · refine Or.inr ⟨by omega, ?_⟩
      show (pyTake desc 100 ++ "...").length = 103
      exact hlen
    · refine Or.inl ?_
      show (pyTake desc 100 ++ "...").length ≤ desc.length
      omega
  · rcases Nat.lt_or_ge 90 desc.length with h2 | h2
    · rw [fd_eq_of_mid desc h2 (by omega)]
      exact Or.inl (Nat.le_refl _)
    · rw [fd_eq_of_le desc (by omega)]
      exact Or.inl (Nat.le_refl _)

set_option maxRecDepth 8192 in
/-- C4 fails on the code (code bug): with a resolved "PART NO" column whose
stored value is the pandas missing marker NaN, `row.get(col, "")` returns the
NaN itself (the default applies only to absent keys), so `str(...)` yields
the literal "nan", which is rendered in the part-number value cell instead of
the empty string the spec requires. -/
theorem C4_missing_value_renders_nan :
    (resolveColumns exCols4).part_no_col = some "PART NO" ∧
    rowGet exRow4 (resolveColumns exCols4).part_no_col = "nan" ∧
    (labelGrid (resolveColumns exCols4) exRow4).get? 1 =
      some [Cell.para "<b>PART NO</b>" CellStyle.header,
        Cell.para "nan" CellStyle.boldValue,
        Cell.para "<b>QTY/VEH</b>" CellStyle.header,
        Cell.para "" CellStyle.value] ∧
    ("nan" : String) ≠ "" := by decide

/-- C8: if the final doc.build step fails, for any exception message, exactly
one file-level error is reported and no document is returned (None, never a
partial document); if the build succeeds the document path is returned and no
error is reported. -/
theorem C8_build_failure_semantics (e temp_path : String) :
    (finish_build (BuildOutcome.error e) temp_path).result = none ∧
    (finish_build (BuildOutcome.error e) temp_path).file_errors.length = 1 ∧
    (finish_build BuildOutcome.ok temp_path).result = some temp_path ∧
    (finish_build BuildOutcome.ok temp_path).file_errors = [] :=
  ⟨rfl, rfl, rfl, rfl⟩

lemma find_in_cols_filter (k : String) (cols : List ColName) :
    find_in_cols k (cols.filter isStrCol) = find_in_cols k cols := by
  induction cols with
  | nil => rfl
  | cons c cs ih =>
    cases c with
    | str s => simp [List.filter_cons, isStrCol, find_in_cols, ih]
    | nonstr t => simp [List.filter_cons, isStrCol, find_in_cols, ih]

lemma find_column_filter (cols : List ColName) (kws : List String) :
    find_column (cols.filter isStrCol) kws = find_column cols kws := by
  induction kws with
  | nil => rfl
  | cons k ks ih => simp only [find_column, find_in_cols_filter, ih]

/-- C9: the Column Resolver skips non-string column labels and never fails:
its result on any column list equals its result on the string columns alone,
and it is always either the unresolved marker None or a string column of the
list matching one of the keywords (totality of the model rules out any
exception). -/
theorem C9_non_string_columns_skipped (cols : List ColName) (kws : List String) :
    find_column (cols.filter isStrCol) kws = find_column cols kws ∧
    (find_column cols kws = none ∨
      ∃ s, find_column cols kws = some s ∧
        ∃ k ∈ kws, ColName.str s ∈ cols ∧ kwMatches k (ColName.str s) = true) := by
  refine ⟨find_column_filter cols kws, ?_⟩
  cases h : find_column cols kws with
  | none => exact Or.inl rfl
  | some s => exact Or.inr ⟨s, rfl, find_column_eq_some cols kws s h⟩

set_option maxRecDepth 8192 in
/-- C6 fails on the code: with columns ["PARTNO_X", "PART NO"] and the
part-number keyword list, both columns match some keyword of the list
("PARTNO_X" contains "PARTNO", "PART NO" contains "PART NO"), yet the
resolver returns "PART NO" — the second column, not the first — because
keyword priority is the outer loop. -/
theorem C6_counterexample :
    kwMatches "PARTNO" (ColName.str "PARTNO_X") = true ∧
    kwMatches "PART NO" (ColName.str "PART NO") = true ∧
    find_column [ColName.str "PARTNO_X", ColName.str "PART NO"]
        ["PART NO", "PARTNO", "PART_NO", "PART#"] = some "PART NO" := by decide

lemma find_in_cols_first (k : String) (p q : List ColName) (s : String)
    (hfirst : ∀ c ∈ p, kwMatches k c = false)
    (hmatch : kwMatches k (ColName.str s) = true) :
    find_in_cols k (p ++ ColName.str s :: q) = some s := by
  induction p with
  | nil =>
      have hc : containsSub (upperChars k) (upperChars s) = true := by
        simpa [kwMatches] using hmatch
      simp [find_in_cols, hc]
  | cons c cs ih =>
      have hrest : ∀ c' ∈ cs, kwMatches k c' = false :=
        fun c' h' => hfirst c' (List.mem_cons_of_mem _ h')
      have hc := hfirst c (List.mem_cons_self _ _)
      cases c with
      | str t =>
          have hct : containsSub (upperChars k) (upperChars t) = false := by
            simpa [kwMatches] using hc
          simp [find_in_cols, hct, ih hrest]
      | nonstr t => simp [find_in_cols, ih hrest]

lemma find_column_skip_keywords (cols : List ColName) (ks1 rest : List String)
    (hpre : ∀ k ∈ ks1, ∀ c ∈ cols, kwMatches k c = false) :
    find_column cols (ks1 ++ rest) = find_column cols rest := by
  induction ks1 with
  | nil => rfl
  | cons k ks ih =>
      have hk : find_in_cols k cols = none :=
        (find_in_cols_eq_none k cols).mpr (hpre k (List.mem_cons_self _ _))
      have hrest : ∀ k' ∈ ks, ∀ c ∈ cols, kwMatches k' c = false :=
        fun k' h' => hpre k' (List.mem_cons_of_mem _ h')
      simp only [List.cons_append, find_column, hk]
      exact ih hrest

/-- C6 (amended): when two candidate columns both match the effective keyword
— the first keyword in priority order that any column matches — the column
appearing first in the dataset's column order wins: for that keyword the
resolver returns the earliest matching column. -/
theorem C6_first_column_wins (cols : List ColName) (ks1 ks2 : List String)
    (k : String) (p q : List ColName) (s : String)
    (hcols : cols = p ++ ColName.str s :: q)
    (hpre : ∀ k' ∈ ks1, ∀ c ∈ cols, kwMatches k' c = false)
    (hfirst : ∀ c ∈ p, kwMatches k c = false)
    (hmatch : kwMatches k (ColName.str s) = true) :
    find_column cols (ks1 ++ k :: ks2) = some s := by
  rw [find_column_skip_keywords cols ks1 (k :: ks2) hpre]
  subst hcols
  have hf := find_in_cols_first k p q s hfirst hmatch
  simp only [find_column, hf]

set_option maxRecDepth 8192 in
/-- Witness for the amended C6: both "X PART NO" and "PART NO 2" contain the
effective keyword "PART NO", and the resolver returns "X PART NO", the column
appearing first in column order. -/
theorem C6_first_column_wins_witness :
    find_column [ColName.str "X PART NO", ColName.str "PART NO 2"]
        ["PART NO", "PARTNO", "PART_NO", "PART#"] = some "X PART NO" ∧
    kwMatches "PART NO" (ColName.str "PART NO 2") = true :=
  ⟨C6_first_column_wins [ColName.str "X PART NO", ColName.str "PART NO 2"]
      [] ["PARTNO", "PART_NO", "PART#"] "PART NO" [] [ColName.str "PART NO 2"]
      "X PART NO" rfl (by decide) (by decide) (by decide),
   by decide⟩

/-- C7: on a dataset with no column matching any part-number keyword, the
part-number field resolves to unresolved (None), and every generated label
grid has an empty part-number value cell while all other fields render by the
normal extraction; the model is total, so no exception can be raised. -/
theorem C7_unresolved_part_no (cols : List ColName)
    (h : ∀ k ∈ ["PART NO", "PARTNO", "PART_NO", "PART#"],
      ∀ c ∈ cols, kwMatches k c = false) :
    (resolveColumns cols).part_no_col = none ∧
    ∀ row : Record, labelGrid (resolveColumns cols) row =
      [ [Cell.para (rowGet row (resolveColumns cols).model_col)
           CellStyle.boldCenteredValue,
         Cell.para (rowGet row (resolveColumns cols).structure_col)
           CellStyle.boldCenteredValue,
         Cell.para (rowGet row (resolveColumns cols).station_no_col)
           CellStyle.boldCenteredValue,
         Cell.para (rowGet row (resolveColumns cols).fixture_location_col)
           CellStyle.boldCenteredValue],
        [Cell.para "<b>PART NO</b>" CellStyle.header,
         Cell.para "" CellStyle.boldValue,
         Cell.para "<b>QTY/VEH</b>" CellStyle.header,
         Cell.para (rowGet row (resolveColumns cols).qty_veh_col) CellStyle.value],
        [Cell.para "<b>PART NAME</b>" CellStyle.header,
         Cell.para (format_description_v1 (rowGet row (resolveColumns cols).desc_col)).1
           (CellStyle.descSized
             (format_description_v1 (rowGet row (resolveColumns cols).desc_col)).2),
         Cell.blank, Cell.blank] ] := by
  have hnone : (resolveColumns cols).part_no_col = none :=
    (find_column_eq_none cols _).mpr h
  refine ⟨hnone, fun row => ?_⟩
  unfold labelGrid
  rw [hnone]
  rfl

set_option maxRecDepth 8192 in
/-- Witness for C7 at a concrete dataset with columns MODEL and QTY/VEH: the
part-number field is unresolved and its value cell renders empty while the
other fields render by the normal extraction. -/
theorem C7_unresolved_part_no_witness :
    (resolveColumns exCols7).part_no_col = none ∧
    labelGrid (resolveColumns exCols7) exRow7 =
      [ [Cell.para (rowGet exRow7 (resolveColumns exCols7).model_col)
           CellStyle.boldCenteredValue,
         Cell.para (rowGet exRow7 (resolveColumns exCols7).structure_col)
           CellStyle.boldCenteredValue,
         Cell.para (rowGet exRow7 (resolveColumns exCols7).station_no_col)
           CellStyle.boldCenteredValue,
         Cell.para (rowGet exRow7 (resolveColumns exCols7).fixture_location_col)
           CellStyle.boldCenteredValue],
        [Cell.para "<b>PART NO</b>" CellStyle.header,
         Cell.para "" CellStyle.boldValue,
         Cell.para "<b>QTY/VEH</b>" CellStyle.header,
         Cell.para (rowGet exRow7 (resolveColumns exCols7).qty_veh_col)
           CellStyle.value],
        [Cell.para "<b>PART NAME</b>" CellStyle.header,
         Cell.para
           (format_description_v1 (rowGet exRow7 (resolveColumns exCols7).desc_col)).1
           (CellStyle.descSized
             (format_description_v1
               (rowGet exRow7 (resolveColumns exCols7).desc_col)).2),
         Cell.blank, Cell.blank] ] :=
  ⟨(C7_unresolved_part_no exCols7 (by decide)).1,
   (C7_unresolved_part_no exCols7 (by decide)).2 exRow7⟩

lemma generate_enumFrom (cmap : ColumnMap) (records : List Record) :
    ∀ (k n : Nat), k + records.length = n →
    generate_elements_from cmap n (List.enumFrom k records)
      = List.intersperse Element.pageBreak
          (records.map (fun r => Element.table (labelGrid cmap r))) := by
  induction records with
  | nil => intro k n h; rfl
  | cons r rest ih =>
    intro k n h
    rw [List.length_cons] at h
    cases rest with
    | nil =>
        have hk : ¬ (k < n - 1) := by simp only [List.length_nil] at h; omega
        simp [List.enumFrom_cons, generate_elements_from, hk]
    | cons r2 rest2 =>
        have hlen : (r2 :: rest2).length = rest2.length + 1 := List.length_cons r2 rest2
        have hk : k < n - 1 := by rw [hlen] at h; omega
        have ihh := ih (k + 1) n (by omega)
        simp only [List.enumFrom_cons, generate_elements_from, if_pos hk, List.map,
          List.intersperse_cons₂] at ihh ⊢
        rw [ihh]

lemma generate_elements_eq_intersperse (cols : List ColName) (records : List Record) :
    generate_final_labels_elements cols records
      = List.intersperse Element.pageBreak
          (records.map (fun r => Element.table (labelGrid (resolveColumns cols) r))) := by
  unfold generate_final_labels_elements
  exact generate_enumFrom (resolveColumns cols) records 0 records.length (by omega)

lemma filter_isTable_intersperse (pages : List Element)
    (hp : ∀ x ∈ pages, isTable x = true) :
    (List.intersperse Element.pageBreak pages).filter isTable = pages := by
  induction pages with
  | nil => rfl
  | cons x rest ih =>
    cases rest with
    | nil => simp [List.filter_cons, hp x (List.mem_cons_self _ _)]
    | cons y rest2 =>
        have hrest : ∀ z ∈ y :: rest2, isTable z = true :=
          fun z hz => hp z (List.mem_cons_of_mem _ hz)
        have hx := hp x (List.mem_cons_self _ _)
        have hb : isTable Element.pageBreak = false := rfl
        rw [List.intersperse_cons₂, List.filter_cons, List.filter_cons]
        simp [hx, hb, ih hrest]

lemma countP_break_intersperse (pages : List Element)
    (hp : ∀ x ∈ pages, isTable x = true) :
    (List.intersperse Element.pageBreak pages).countP isPageBreak
      = pages.length - 1 := by
  induction pages with
  | nil => rfl
  | cons x rest ih =>
    cases rest with
    | nil =>
        have hx := hp x (List.mem_cons_self _ _)
        cases x with
        | table g => rfl
        | pageBreak => simp [isTable] at hx
    | cons y rest2 =>
        have hrest : ∀ z ∈ y :: rest2, isTable z = true :=
          fun z hz => hp z (List.mem_cons_of_mem _ hz)
        have hx := hp x (List.mem_cons_self _ _)
        have hxb : isPageBreak x = false := by
          cases x with
          | table g => rfl
          | pageBreak => simp [isTable] at hx
        have hbb : isPageBreak Element.pageBreak = true := rfl
        rw [List.intersperse_cons₂, List.countP_cons, List.countP_cons, ih hrest]
        simp only [hxb, hbb, List.length_cons]
        simp

lemma mem_map_table (cols : List ColName) (records : List Record) :
    ∀ x ∈ records.map (fun r => Element.table (labelGrid (resolveColumns cols) r)),
      isTable x = true := by
  intro x hx
  obtain ⟨r, _, rfl⟩ := List.mem_map.mp hx
  rfl

/-- C5: on a dataset of n records the assembled element sequence is exactly
the n label tables, in input order, interspersed with single page breaks —
so it holds exactly n tables and n-1 page breaks, one between each pair of
consecutive pages and none after the last; in particular a 5-row dataset
yields exactly 5 pages and 4 page breaks. -/
theorem C5_page_count_and_breaks (cols : List ColName) (records : List Record) :
    generate_final_labels_elements cols records
      = List.intersperse Element.pageBreak
          (records.map (fun r => Element.table (labelGrid (resolveColumns cols) r))) ∧
    (generate_final_labels_elements cols records).countP isTable = records.length ∧
    (generate_final_labels_elements cols records).countP isPageBreak
      = records.length - 1 ∧
    (records.length = 5 →
      (generate_final_labels_elements cols records).countP isTable = 5 ∧
      (generate_final_labels_elements cols records).countP isPageBreak = 4) := by
  have he := generate_elements_eq_intersperse cols records
  have hmem := mem_map_table cols records
  have htab : (generate_final_labels_elements cols records).countP isTable
      = records.length := by
    rw [he, List.countP_eq_length_filter, filter_isTable_intersperse _ hmem,
      List.length_map]
  have hbrk : (generate_final_labels_elements cols records).countP isPageBreak
      = records.length - 1 := by
    rw [he, countP_break_intersperse _ hmem, List.length_map]
  exact ⟨he, htab, hbrk, fun h5 => ⟨by rw [htab, h5], by rw [hbrk, h5]⟩⟩

/-- Witness for C5 at a concrete 5-record dataset: exactly 5 label tables and
exactly 4 page breaks. -/
theorem C5_page_count_and_breaks_witness :
    (generate_final_labels_elements [] (List.replicate 5 [])).countP isTable = 5 ∧
    (generate_final_labels_elements [] (List.replicate 5 [])).countP isPageBreak = 4 :=
  (C5_page_count_and_breaks [] (List.replicate 5 [])).2.2.2 (by simp)

set_option maxRecDepth 8192 in
/-- C10 fails on the code in its "only when" direction: for a 2-row dataset
with index labels (0, 5) — not the default (0, 1) — the loop still emits one
page break between the two pages and none after the last, so correct
pagination does not require the default labels. -/
theorem C10_counterexample :
    wellPaginated (generate_elements_from (resolveColumns []) 2
        [(0, ([] : Record)), (5, ([] : Record))]) = true ∧
    [(0 : Nat), 5] ≠ List.range 2 := by decide

/-- C10 (amended): the loop appends a page break after a record's page
exactly when the record's DataFrame index label is strictly less than
total_rows - 1, independently of the record's position; consequently the
pagination guarantee holds whenever the index labels are the default
positions 0..n-1 (as supplied by the caller), and it can fail for
non-default labels. -/
theorem C10_break_depends_on_index_label :
    (∀ (cmap : ColumnMap) (total : Nat) (rows : List (Nat × Record)),
        generate_elements_from cmap total rows
          = rows.flatMap (fun p => Element.table (labelGrid cmap p.2) ::
              (if p.1 < total - 1 then [Element.pageBreak] else []))) ∧
    (∀ (cols : List ColName) (records : List Record),
        wellPaginated (generate_final_labels_elements cols records) = true) ∧
    (∃ rows : List (Nat × Record),
        wellPaginated (generate_elements_from (resolveColumns [])
          rows.length rows) = false) := by
  refine ⟨?_, ?_, ?_⟩
  · intro cmap total rows
    induction rows with
    | nil => rfl
    | cons p rest ih =>
        obtain ⟨i, r⟩ := p
        by_cases hi : i < total - 1 <;>
          simp [generate_elements_from, List.flatMap_cons, hi, ih]
  · intro cols records
    have he := generate_elements_eq_intersperse cols records
    have hmem := mem_map_table cols records
    simp only [wellPaginated, decide_eq_true_eq]
    rw [he, filter_isTable_intersperse _ hmem]
  · exact ⟨[(1, []), (0, [])], by decide⟩

end CSEL
